import Mathlib

/-!
Shallow embedding of the round state machine, angle simulator and scoring
function of the kantpress simulator (src/main.js).  Angles and time deltas
are modelled as rationals; JS `Math.floor` is `Int.floor`, `Math.abs` is `|·|`.
The DOM, audio and leaderboard side effects carry no session state and are
dropped; the session record `state` of main.js becomes the structure
`GameState` (the never-read `startTime`/`lastTime` timestamps are omitted).
Random target selection (`TARGET_ANGLES[Math.floor(Math.random()*len)]`) is
modelled by passing the drawn index `pick : Fin TARGET_ANGLES.length`
explicitly.
-/

namespace Kantpress

/-- `const TARGET_ANGLES = [40, 85, 90, 100, 135, 160, 170];` (main.js line 5). -/
def TARGET_ANGLES : List ℚ := [40, 85, 90, 100, 135, 160, 170]

/-- `const SCORE_PER_EXACT_HIT = 100;` -/
def SCORE_PER_EXACT_HIT : ℤ := 100

/-- `const MAX_ROUNDS = 10;` -/
def MAX_ROUNDS : ℕ := 10

/-- The values `state.gamePhase` actually takes in main.js
(`'IDLE', 'BENDING', 'STOPPED', 'GAMEOVER'`). -/
inductive GamePhase where
  | IDLE
  | BENDING
  | STOPPED
  | GAMEOVER
deriving DecidableEq

/-- The mutable session record `state` of main.js (lines 11-21). -/
structure GameState where
  score : ℤ
  level : ℕ
  currentRound : ℕ
  targetAngle : ℚ
  currentAngle : ℚ
  isBending : Bool
  gamePhase : GamePhase
  bendSpeed : ℚ
deriving DecidableEq

/-- The initial `state` literal of main.js. -/
def state0 : GameState :=
  { score := 0
    level := 1
    currentRound := 1
    targetAngle := 0
    currentAngle := 180
    isBending := false
    gamePhase := GamePhase.IDLE
    bendSpeed := 30 }

/-- The points computed by `calculateScore` (main.js lines 310-325) from the
final angle and the target angle:
`diff < 0.5` gives the exact-hit bonus 100, otherwise
`Math.max(0, Math.floor(100 - diff * 5))`. -/
def scorePoints (finalAngle targetAngle : ℚ) : ℤ :=
  if |finalAngle - targetAngle| < 1/2 then SCORE_PER_EXACT_HIT
  else max 0 ⌊(100 : ℚ) - |finalAngle - targetAngle| * 5⌋

/-- `calculateScore()` : accumulates `scorePoints` into `state.score`. -/
def calculateScore (s : GameState) : GameState :=
  { s with score := s.score + scorePoints s.currentAngle s.targetAngle }

/-- `startBending()` (main.js lines 270-285): guarded on `gamePhase === 'IDLE'`,
sets phase to BENDING and `isBending` to true. -/
def startBending (s : GameState) : GameState :=
  if s.gamePhase ≠ GamePhase.IDLE then s
  else { s with gamePhase := GamePhase.BENDING, isBending := true }

/-- `stopBending()` (main.js lines 287-308): guarded on
`gamePhase === 'BENDING'`; sets phase to STOPPED, clears `isBending`,
runs `calculateScore()` and then increments `currentRound`. -/
def stopBending (s : GameState) : GameState :=
  if s.gamePhase ≠ GamePhase.BENDING then s
  else
    let s1 := calculateScore
      { s with gamePhase := GamePhase.STOPPED, isBending := false }
    { s1 with currentRound := s1.currentRound + 1 }

/-- `toggleAction()` (main.js lines 262-268): the single toggle button. -/
def toggleAction (s : GameState) : GameState :=
  match s.gamePhase with
  | GamePhase.IDLE => startBending s
  | GamePhase.BENDING => stopBending s
  | _ => s

/-- `endGame()` (main.js lines 104-110): sets phase to GAMEOVER
(the rest of the function is DOM / leaderboard glue). -/
def endGame (s : GameState) : GameState :=
  { s with gamePhase := GamePhase.GAMEOVER }

/-- `nextLevel()` (main.js lines 82-102), with the random draw made explicit:
if `currentRound > MAX_ROUNDS` it calls `endGame()` and returns, otherwise it
re-enters IDLE with `currentAngle = 180`, `isBending = false`, a freshly drawn
`targetAngle` and `level = currentRound`. -/
def nextLevel (pick : Fin TARGET_ANGLES.length) (s : GameState) : GameState :=
  if s.currentRound > MAX_ROUNDS then endGame s
  else
    { s with gamePhase := GamePhase.IDLE
             currentAngle := 180
             isBending := false
             targetAngle := TARGET_ANGLES.get pick
             level := s.currentRound }

/-- `restartGame()` (main.js lines 190-196): resets `score`, `currentRound`
and `level`, then calls `nextLevel()`. -/
def restartGame (pick : Fin TARGET_ANGLES.length) (s : GameState) : GameState :=
  nextLevel pick { s with score := 0, currentRound := 1, level := 1 }

/-- `update(dt)` (main.js lines 338-347), the per-tick simulation step:
while `isBending`, decrease the angle by `bendSpeed * dt`; if the result is
below 45 clamp it to 45 and force `stopBending()`.  The rest of `update` only
writes DOM text. -/
def update (dt : ℚ) (s : GameState) : GameState :=
  if s.isBending then
    if s.currentAngle - s.bendSpeed * dt < 45 then
      stopBending { s with currentAngle := 45 }
    else { s with currentAngle := s.currentAngle - s.bendSpeed * dt }
  else s

/-- The state after `initGame()` runs its initial `nextLevel()` call on
`state0`, with the first random draw `pick`. -/
def initState (pick : Fin TARGET_ANGLES.length) : GameState :=
  nextLevel pick state0

/-- One externally triggered event of main.js: a press of the toggle button
(`toggleAction`), a click of the next-round button (`nextLevel`), a restart
(`restartGame`), or an animation frame (`update` with a non-negative elapsed
time). -/
inductive Step : GameState → GameState → Prop where
  | toggle (s : GameState) : Step s (toggleAction s)
  | next (pick : Fin TARGET_ANGLES.length) (s : GameState) :
      Step s (nextLevel pick s)
  | restart (pick : Fin TARGET_ANGLES.length) (s : GameState) :
      Step s (restartGame pick s)
  | tick (dt : ℚ) (s : GameState) (h : 0 ≤ dt) : Step s (update dt s)

/-- Session states reachable from start-up by the events of `Step`. -/
inductive Reachable : GameState → Prop where
  | init (pick : Fin TARGET_ANGLES.length) : Reachable (initState pick)
  | step {s t : GameState} : Reachable s → Step s t → Reachable t

/-- A concrete first draw (index 0, target angle 40). -/
def pick0 : Fin TARGET_ANGLES.length := ⟨0, by norm_num [TARGET_ANGLES]⟩

/-- A concrete mid-bend state: round 1, target 90, angle 120, bending. -/
def sB : GameState :=
  { state0 with currentAngle := 120, isBending := true,
                gamePhase := GamePhase.BENDING, targetAngle := 90 }

/-- A concrete bending state whose angle 40 already sits below the floor 45. -/
def sLow : GameState :=
  { state0 with currentAngle := 40, isBending := true,
                gamePhase := GamePhase.BENDING, targetAngle := 90 }

/-- The concrete bending state reached from start-up by one toggle press. -/
def s1 : GameState := startBending (initState pick0)

/-- A concrete state that has just finished its last round:
round counter 11 > MAX_ROUNDS, phase STOPPED. -/
def sOver : GameState :=
  { state0 with currentRound := 11, level := 10, gamePhase := GamePhase.STOPPED,
                targetAngle := 90, currentAngle := 100, score := 420 }

@[simp] lemma stopBending_currentAngle (s : GameState) :
    (stopBending s).currentAngle = s.currentAngle := by
  unfold stopBending calculateScore; split <;> rfl

@[simp] lemma stopBending_targetAngle (s : GameState) :
    (stopBending s).targetAngle = s.targetAngle := by
  unfold stopBending calculateScore; split <;> rfl

@[simp] lemma stopBending_bendSpeed (s : GameState) :
    (stopBending s).bendSpeed = s.bendSpeed := by
  unfold stopBending calculateScore; split <;> rfl

@[simp] lemma startBending_targetAngle (s : GameState) :
    (startBending s).targetAngle = s.targetAngle := by
  unfold startBending; split <;> rfl

@[simp] lemma update_targetAngle (dt : ℚ) (s : GameState) :
    (update dt s).targetAngle = s.targetAngle := by
  unfold update
  split
  · split <;> simp
  · rfl

@[simp] lemma update_bendSpeed (dt : ℚ) (s : GameState) :
    (update dt s).bendSpeed = s.bendSpeed := by
  unfold update
  split
  · split <;> simp
  · rfl

@[simp] lemma toggleAction_targetAngle (s : GameState) :
    (toggleAction s).targetAngle = s.targetAngle := by
  unfold toggleAction
  split
  · exact startBending_targetAngle s
  · exact stopBending_targetAngle s
  · rfl

end Kantpress

namespace Kantpress

/-- C1: for every `finalAngle` and `targetAngle`, with
`diff = |finalAngle - targetAngle|`, the scoring function returns 100 when
`diff < 0.5` and `max 0 ⌊100 - diff * 5⌋` otherwise, and its result is always
an integer in `[0, 100]`. -/
theorem scorePoints_spec (finalAngle targetAngle : ℚ) :
    scorePoints finalAngle targetAngle =
      (if |finalAngle - targetAngle| < 1/2 then (100 : ℤ)
       else max 0 ⌊(100 : ℚ) - |finalAngle - targetAngle| * 5⌋) ∧
    0 ≤ scorePoints finalAngle targetAngle ∧
    scorePoints finalAngle targetAngle ≤ 100 := by
  have hd : (0 : ℚ) ≤ |finalAngle - targetAngle| := abs_nonneg _
  unfold scorePoints SCORE_PER_EXACT_HIT
  refine ⟨rfl, ?_, ?_⟩ <;> split_ifs with h
  · norm_num
  · exact le_max_left 0 _
  · norm_num
  · refine max_le (by norm_num) ?_
    have hle : (100 : ℚ) - |finalAngle - targetAngle| * 5 ≤ 100 := by nlinarith
    calc ⌊(100 : ℚ) - |finalAngle - targetAngle| * 5⌋
        ≤ ⌊(100 : ℚ)⌋ := Int.floor_le_floor hle
      _ = 100 := by norm_num

end Kantpress

namespace Kantpress

/-- C2 counterexample: at the bending state `sLow` whose angle 40 is already
below the floor, a tick with `bendSpeed = 30 > 0` and `elapsedSeconds = 0`
clamps the angle up to 45, so the new angle is NOT `≤` the input angle. -/
theorem update_not_monotone_below_floor :
    sLow.isBending = true ∧ 0 < sLow.bendSpeed ∧ (0 : ℚ) ≤ 0 ∧
    ¬ (update 0 sLow).currentAngle ≤ sLow.currentAngle := by
  norm_num [sLow, state0, update, stopBending, calculateScore]

/-- C2 (amended): for every current angle that is at least the floor 45, every
`bendSpeed > 0` and every `elapsedSeconds ≥ 0`, one simulation step while
bending yields an angle `≤` the input angle and `≥ 45`, and when
`currentAngle - bendSpeed * elapsedSeconds` would fall below 45 the new angle
is exactly 45. -/
theorem update_monotone_above_floor (s : GameState) (dt : ℚ)
    (hb : s.isBending = true) (hs : 0 < s.bendSpeed) (hdt : 0 ≤ dt)
    (hfl : 45 ≤ s.currentAngle) :
    (update dt s).currentAngle ≤ s.currentAngle ∧
    45 ≤ (update dt s).currentAngle ∧
    (s.currentAngle - s.bendSpeed * dt < 45 →
      (update dt s).currentAngle = 45) := by
  have hmul : 0 ≤ s.bendSpeed * dt := mul_nonneg hs.le hdt
  unfold update
  rw [hb]
  simp only [if_true]
  split_ifs with hc
  · rw [stopBending_currentAngle]
    exact ⟨hfl, le_refl _, fun _ => rfl⟩
  · refine ⟨?_, ?_, fun hcon => absurd hcon hc⟩
    · show s.currentAngle - s.bendSpeed * dt ≤ s.currentAngle
      linarith
    · show (45 : ℚ) ≤ s.currentAngle - s.bendSpeed * dt
      exact not_lt.mp hc

/-- C2 witness: the amended theorem applied at the concrete bending state
`sB` (angle 120) with `dt = 5`, where the raw new angle `120 - 150 < 45`. -/
theorem update_monotone_above_floor_witness :
    (update 5 sB).currentAngle ≤ sB.currentAngle ∧
    45 ≤ (update 5 sB).currentAngle ∧
    (sB.currentAngle - sB.bendSpeed * 5 < 45 →
      (update 5 sB).currentAngle = 45) :=
  update_monotone_above_floor sB 5 (by norm_num [sB, state0])
    (by norm_num [sB, state0]) (by norm_num) (by norm_num [sB, state0])

/-- C9: for every session state (a GameOver state after ten rounds included),
`restartGame` resets the score to 0 and the round counter to 1, returns to
IDLE with `currentAngle = 180` and a freshly drawn target angle from the
candidate set, as if entering round 1 fresh. -/
theorem restartGame_resets (s : GameState) (pick : Fin TARGET_ANGLES.length) :
    restartGame pick s =
      { score := 0, level := 1, currentRound := 1,
        targetAngle := TARGET_ANGLES.get pick, currentAngle := 180,
        isBending := false, gamePhase := GamePhase.IDLE,
        bendSpeed := s.bendSpeed } ∧
    TARGET_ANGLES.get pick ∈ TARGET_ANGLES := by
  constructor
  · norm_num [restartGame, nextLevel, MAX_ROUNDS]
  · exact TARGET_ANGLES.get_mem pick.1 pick.2

/-- C10: a simulation step taken while `isBending` is false leaves the whole
session record unchanged, whatever the elapsed-time delta; contrapositively,
only a step taken while bending can mutate the session. -/
theorem update_frame (s : GameState) (dt : ℚ) :
    (s.isBending = false → update dt s = s) ∧
    (update dt s ≠ s → s.isBending = true) := by
  constructor
  · intro h
    simp [update, h]
  · intro h
    cases hb : s.isBending
    · exact absurd (by simp [update, hb]) h
    · rfl

/-- C10 witness: the frame theorem applied at the concrete non-bending
start-up state with `dt = 7`, and at the bending state `sB` where the step
does mutate the session. -/
theorem update_frame_witness :
    update 7 (initState pick0) = initState pick0 ∧ sB.isBending = true := by
  refine ⟨(update_frame (initState pick0) 7).1 ?_, (update_frame sB 5).2 ?_⟩
  · norm_num [initState, nextLevel, state0, MAX_ROUNDS]
  · intro hcon
    have : (update 5 sB).currentAngle = sB.currentAngle := by rw [hcon]
    rw [show (update 5 sB).currentAngle = 45 by
          norm_num [update, sB, state0, stopBending, calculateScore]] at this
    norm_num [sB, state0] at this

/-- C3: a manual stop while BENDING moves the phase to STOPPED, adds
`scorePoints currentAngle targetAngle` to the session score and increments
the round counter, touching nothing else; a forced stop during a tick that
clamps does the same against the clamped angle 45; and while already STOPPED
a further stop signal, manual (`stopBending`) or forced (a tick, which cannot
fire since `isBending` is false), changes nothing. -/
theorem stop_scores_once (s : GameState) (dt : ℚ) :
    (s.gamePhase = GamePhase.BENDING →
      stopBending s =
        { s with gamePhase := GamePhase.STOPPED, isBending := false,
                 score := s.score + scorePoints s.currentAngle s.targetAngle,
                 currentRound := s.currentRound + 1 }) ∧
    (s.isBending = true → s.gamePhase = GamePhase.BENDING →
      s.currentAngle - s.bendSpeed * dt < 45 →
      (update dt s).gamePhase = GamePhase.STOPPED ∧
      (update dt s).score = s.score + scorePoints 45 s.targetAngle ∧
      (update dt s).currentRound = s.currentRound + 1 ∧
      (update dt s).currentAngle = 45) ∧
    (s.gamePhase = GamePhase.STOPPED →
      stopBending s = s ∧ (s.isBending = false → update dt s = s)) := by
  refine ⟨fun hp => ?_, fun hb hp hc => ?_, fun hp => ⟨?_, fun hb => ?_⟩⟩
  · simp [stopBending, calculateScore, hp]
  · unfold update
    rw [hb]
    simp only [if_true, if_pos hc]
    simp [stopBending, calculateScore, hp]
  · simp [stopBending, hp]
  · simp [update, hb]

/-- C3 witness: the theorem applied at the concrete bending state `sB` with
`dt = 5` (forcing the clamp at 45), and then at the STOPPED state it
produces, where a further stop signal is a no-op. -/
theorem stop_scores_once_witness :
    (update 5 sB).gamePhase = GamePhase.STOPPED ∧
    (update 5 sB).score = sB.score + scorePoints 45 sB.targetAngle ∧
    (update 5 sB).currentRound = sB.currentRound + 1 ∧
    stopBending (update 5 sB) = update 5 sB ∧
    stopBending sB =
      { sB with gamePhase := GamePhase.STOPPED, isBending := false,
                score := sB.score + scorePoints sB.currentAngle sB.targetAngle,
                currentRound := sB.currentRound + 1 } := by
  have h2 := (stop_scores_once sB 5).2.1 (by norm_num [sB, state0])
    (by norm_num [sB, state0]) (by norm_num [sB, state0])
  have h3 := ((stop_scores_once (update 5 sB) 5).2.2 h2.1).1
  have h1 := (stop_scores_once sB 5).1 (by norm_num [sB, state0])
  exact ⟨h2.1, h2.2.1, h2.2.2.1, h3, h1⟩

/-- C4 counterexample: at the concrete BENDING state `sB` (round 1), the
"advance round" action `nextLevel` is NOT a no-op: it resets the current
angle from 120 to 180, although its transition guard (phase STOPPED) does
not hold. -/
theorem nextLevel_while_bending_not_noop :
    sB.gamePhase = GamePhase.BENDING ∧ sB.currentRound ≤ MAX_ROUNDS ∧
    (nextLevel pick0 sB).currentAngle ≠ sB.currentAngle := by
  norm_num [nextLevel, sB, state0, MAX_ROUNDS]

/-- C4 (amended): a "stop" signal while IDLE and a "start" signal while
BENDING or STOPPED are silent no-ops, as is the toggle button while STOPPED
or GAMEOVER; but the "advance round" action is not phase-guarded in the
core: whenever the round counter is `≤ MAX_ROUNDS` — also while IDLE or
BENDING — it performs a normal round entry (phase to IDLE, angle reset to
180, a fresh target drawn) leaving only score and round counter unchanged;
its no-op behaviour outside STOPPED exists only because the UI hides the
advance button. -/
theorem illegal_transitions (s : GameState) (pick : Fin TARGET_ANGLES.length) :
    (s.gamePhase = GamePhase.IDLE → stopBending s = s) ∧
    (s.gamePhase = GamePhase.BENDING ∨ s.gamePhase = GamePhase.STOPPED →
      startBending s = s) ∧
    (s.gamePhase = GamePhase.STOPPED ∨ s.gamePhase = GamePhase.GAMEOVER →
      toggleAction s = s) ∧
    (s.currentRound ≤ MAX_ROUNDS →
      (nextLevel pick s).score = s.score ∧
      (nextLevel pick s).currentRound = s.currentRound ∧
      (nextLevel pick s).gamePhase = GamePhase.IDLE ∧
      (nextLevel pick s).currentAngle = 180 ∧
      (nextLevel pick s).targetAngle = TARGET_ANGLES.get pick) := by
  refine ⟨fun hp => ?_, fun hp => ?_, fun hp => ?_, fun hr => ?_⟩
  · simp [stopBending, hp]
  · rcases hp with hp | hp <;> simp [startBending, hp]
  · rcases hp with hp | hp <;> simp [toggleAction, hp]
  · have hg : ¬ s.currentRound > MAX_ROUNDS := by omega
    simp [nextLevel, hg]

/-- C4 witness: the amended theorem applied at the concrete start-up state
(IDLE, round 1) and at the bending state `sB`. -/
theorem illegal_transitions_witness :
    stopBending (initState pick0) = initState pick0 ∧
    startBending sB = sB ∧
    (nextLevel pick0 (initState pick0)).currentRound =
      (initState pick0).currentRound ∧
    (nextLevel pick0 (initState pick0)).gamePhase = GamePhase.IDLE := by
  have hi := illegal_transitions (initState pick0) pick0
  have hb := illegal_transitions sB pick0
  have h4 := hi.2.2.2 (by norm_num [initState, nextLevel, state0, MAX_ROUNDS])
  exact ⟨hi.1 (by norm_num [initState, nextLevel, state0, MAX_ROUNDS]),
         hb.2.1 (Or.inl (by norm_num [sB, state0])), h4.2.1, h4.2.2.1⟩

/-- C5: when the "advance round" action fires with the round counter above
MAX_ROUNDS, the phase moves to GAMEOVER and nothing else changes; from that
GAMEOVER state every further advance, toggle, start or stop signal leaves
the session record unchanged. -/
theorem gameOver_absorbing (s : GameState)
    (pick pick2 : Fin TARGET_ANGLES.length)
    (h : MAX_ROUNDS < s.currentRound) :
    nextLevel pick s = { s with gamePhase := GamePhase.GAMEOVER } ∧
    (nextLevel pick s).gamePhase = GamePhase.GAMEOVER ∧
    nextLevel pick2 (nextLevel pick s) = nextLevel pick s ∧
    toggleAction (nextLevel pick s) = nextLevel pick s ∧
    startBending (nextLevel pick s) = nextLevel pick s ∧
    stopBending (nextLevel pick s) = nextLevel pick s := by
  have h1 : nextLevel pick s = { s with gamePhase := GamePhase.GAMEOVER } := by
    simp [nextLevel, endGame, h]
  refine ⟨h1, by rw [h1], ?_, ?_, ?_, ?_⟩ <;> rw [h1]
  · simp [nextLevel, endGame, h]
  · simp [toggleAction]
  · simp [startBending]
  · simp [stopBending]

/-- C5 witness: the theorem applied at the concrete state `sOver`
(round counter 11 > 10, phase STOPPED). -/
theorem gameOver_absorbing_witness :
    (nextLevel pick0 sOver).gamePhase = GamePhase.GAMEOVER ∧
    nextLevel pick0 (nextLevel pick0 sOver) = nextLevel pick0 sOver ∧
    toggleAction (nextLevel pick0 sOver) = nextLevel pick0 sOver := by
  have h := gameOver_absorbing sOver pick0 pick0
    (by norm_num [sOver, state0, MAX_ROUNDS])
  exact ⟨h.2.1, h.2.2.1, h.2.2.2.1⟩

/-- The inductive invariant of the session: the angle stays in `[45, 180]`,
the bend speed stays at its constant 30, the simulator-active flag mirrors
the BENDING phase, the target angle belongs to the candidate set outside
GAMEOVER, and a round counter past MAX_ROUNDS only occurs in phase STOPPED
or GAMEOVER. -/
def Inv (s : GameState) : Prop :=
  45 ≤ s.currentAngle ∧ s.currentAngle ≤ 180 ∧
  s.bendSpeed = 30 ∧
  (s.isBending = true ↔ s.gamePhase = GamePhase.BENDING) ∧
  (s.gamePhase ≠ GamePhase.GAMEOVER → s.targetAngle ∈ TARGET_ANGLES) ∧
  (MAX_ROUNDS < s.currentRound →
    s.gamePhase = GamePhase.STOPPED ∨ s.gamePhase = GamePhase.GAMEOVER)

lemma inv_initState (pick : Fin TARGET_ANGLES.length) :
    Inv (initState pick) := by
  refine ⟨by norm_num [initState, nextLevel, state0, MAX_ROUNDS],
          by norm_num [initState, nextLevel, state0, MAX_ROUNDS],
          by norm_num [initState, nextLevel, state0, MAX_ROUNDS],
          by simp [initState, nextLevel, state0, MAX_ROUNDS],
          fun _ => ?_, fun hr => ?_⟩
  · show (initState pick).targetAngle ∈ TARGET_ANGLES
    rw [show (initState pick).targetAngle = TARGET_ANGLES.get pick by
          norm_num [initState, nextLevel, state0, MAX_ROUNDS]]
    exact TARGET_ANGLES.get_mem pick.1 pick.2
  · rw [show (initState pick).currentRound = 1 by
          norm_num [initState, nextLevel, state0, MAX_ROUNDS]] at hr
    exact absurd hr (by norm_num [MAX_ROUNDS])

lemma inv_startBending {s : GameState} (h : Inv s) : Inv (startBending s) := by
  obtain ⟨h1, h2, h3, h4, h5, h6⟩ := h
  unfold startBending
  split_ifs with hp
  · exact ⟨h1, h2, h3, h4, h5, h6⟩
  · have hidle : s.gamePhase = GamePhase.IDLE := not_not.mp hp
    refine ⟨h1, h2, h3, by simp, fun _ => h5 (by rw [hidle]; simp),
            fun hr => ?_⟩
    rcases h6 hr with hst | hgo
    · rw [hidle] at hst; exact absurd hst (by simp)
    · rw [hidle] at hgo; exact absurd hgo (by simp)

lemma inv_stopBending {s : GameState} (h : Inv s) : Inv (stopBending s) := by
  obtain ⟨h1, h2, h3, h4, h5, h6⟩ := h
  unfold stopBending calculateScore
  split_ifs with hp
  · exact ⟨h1, h2, h3, h4, h5, h6⟩
  · have hbend : s.gamePhase = GamePhase.BENDING := not_not.mp hp
    exact ⟨h1, h2, h3, by simp, fun _ => h5 (by rw [hbend]; simp),
           fun _ => Or.inl rfl⟩

lemma inv_toggleAction {s : GameState} (h : Inv s) : Inv (toggleAction s) := by
  unfold toggleAction
  split
  · exact inv_startBending h
  · exact inv_stopBending h
  · exact h

lemma inv_nextLevel (pick : Fin TARGET_ANGLES.length) {s : GameState}
    (h : Inv s) : Inv (nextLevel pick s) := by
  obtain ⟨h1, h2, h3, h4, h5, h6⟩ := h
  unfold nextLevel endGame
  split_ifs with hr
  · have hnb : s.isBending = false := by
      cases hb : s.isBending
      · rfl
      · rcases h6 hr with hst | hgo
        · rw [h4.mp hb] at hst; exact absurd hst (by simp)
        · rw [h4.mp hb] at hgo; exact absurd hgo (by simp)
    exact ⟨h1, h2, h3, by simp [hnb], fun hcon => absurd rfl hcon,
           fun _ => Or.inr rfl⟩
  · exact ⟨by norm_num, by norm_num, h3, by simp,
           fun _ => TARGET_ANGLES.get_mem pick.1 pick.2,
           fun hcon => absurd hcon hr⟩

lemma inv_restartGame (pick : Fin TARGET_ANGLES.length) {s : GameState}
    (h : Inv s) : Inv (restartGame pick s) := by
  obtain ⟨h1, h2, h3, h4, h5, h6⟩ := h
  unfold restartGame
  exact inv_nextLevel pick
    ⟨h1, h2, h3, h4, h5, by norm_num [MAX_ROUNDS]⟩

lemma inv_update (dt : ℚ) (hdt : 0 ≤ dt) {s : GameState} (h : Inv s) :
    Inv (update dt s) := by
  obtain ⟨h1, h2, h3, h4, h5, h6⟩ := h
  unfold update
  cases hb : s.isBending
  · exact ⟨h1, h2, h3, h4, h5, h6⟩
  · have hmul : 0 ≤ s.bendSpeed * dt := by rw [h3]; positivity
    simp only [if_true]
    split_ifs with hc
    · refine inv_stopBending ⟨le_refl _, ?_, h3,
        iff_of_true rfl (h4.mp hb), h5, h6⟩
      show (45 : ℚ) ≤ 180
      norm_num
    · refine ⟨not_lt.mp hc, ?_, h3, iff_of_true rfl (h4.mp hb), h5, h6⟩
      show s.currentAngle - s.bendSpeed * dt ≤ 180
      linarith

/-- Every reachable session state satisfies the inductive invariant. -/
theorem reachable_inv {s : GameState} (h : Reachable s) : Inv s := by
  induction h with
  | init pick => exact inv_initState pick
  | step _ hstep ih =>
    cases hstep with
    | toggle s => exact inv_toggleAction ih
    | next pick s => exact inv_nextLevel pick ih
    | restart pick s => exact inv_restartGame pick ih
    | tick dt s hdt => exact inv_update dt hdt ih

/-- C6: in every reachable session state (ticks carry non-negative deltas),
`currentAngle` lies in `[45, 180]` (45 is the configured floor of main.js);
each operation — toggle (start/stop), simulation step, advance, restart —
again yields an angle in `[45, 180]`; and round entry (`nextLevel` with the
round counter within bounds) resets `currentAngle` to 180. -/
theorem angle_invariant (s : GameState) (h : Reachable s) :
    (45 ≤ s.currentAngle ∧ s.currentAngle ≤ 180) ∧
    (∀ pick, s.currentRound ≤ MAX_ROUNDS →
      (nextLevel pick s).currentAngle = 180) ∧
    (∀ (pick : Fin TARGET_ANGLES.length) (dt : ℚ), 0 ≤ dt →
      (45 ≤ (toggleAction s).currentAngle ∧
        (toggleAction s).currentAngle ≤ 180) ∧
      (45 ≤ (update dt s).currentAngle ∧ (update dt s).currentAngle ≤ 180) ∧
      (45 ≤ (nextLevel pick s).currentAngle ∧
        (nextLevel pick s).currentAngle ≤ 180) ∧
      (45 ≤ (restartGame pick s).currentAngle ∧
        (restartGame pick s).currentAngle ≤ 180)) := by
  have hi := reachable_inv h
  refine ⟨⟨hi.1, hi.2.1⟩, fun pick hr => ?_, fun pick dt hdt => ?_⟩
  · have hg : ¬ s.currentRound > MAX_ROUNDS := by omega
    simp [nextLevel, hg]
  · have ht := inv_toggleAction hi
    have hu := inv_update dt hdt hi
    have hn := inv_nextLevel pick hi
    have hrst := inv_restartGame pick hi
    exact ⟨⟨ht.1, ht.2.1⟩, ⟨hu.1, hu.2.1⟩, ⟨hn.1, hn.2.1⟩,
           ⟨hrst.1, hrst.2.1⟩⟩

/-- C6 witness: the angle invariant applied at the concrete reachable
start-up state, whose round counter 1 is within bounds. -/
theorem angle_invariant_witness :
    (45 ≤ (initState pick0).currentAngle ∧
      (initState pick0).currentAngle ≤ 180) ∧
    (nextLevel pick0 (initState pick0)).currentAngle = 180 := by
  have h := angle_invariant (initState pick0) (Reachable.init pick0)
  exact ⟨h.1, h.2.1 pick0
    (by norm_num [initState, nextLevel, state0, MAX_ROUNDS])⟩

/-- C7: in every reachable session state whose phase is not GAMEOVER, the
target angle is a member of the configured candidate set `TARGET_ANGLES`;
the toggle, start, stop and tick operations never change it (it is set only
by round entry, which draws it from the candidate set). -/
theorem target_invariant (s : GameState) (h : Reachable s) :
    (s.gamePhase ≠ GamePhase.GAMEOVER → s.targetAngle ∈ TARGET_ANGLES) ∧
    (toggleAction s).targetAngle = s.targetAngle ∧
    (startBending s).targetAngle = s.targetAngle ∧
    (stopBending s).targetAngle = s.targetAngle ∧
    (∀ dt : ℚ, (update dt s).targetAngle = s.targetAngle) ∧
    (∀ pick, s.currentRound ≤ MAX_ROUNDS →
      (nextLevel pick s).targetAngle = TARGET_ANGLES.get pick) := by
  have hi := reachable_inv h
  refine ⟨hi.2.2.2.2.1, toggleAction_targetAngle s, startBending_targetAngle s,
          stopBending_targetAngle s, fun dt => update_targetAngle dt s,
          fun pick hr => ?_⟩
  have hg : ¬ s.currentRound > MAX_ROUNDS := by omega
  simp [nextLevel, hg]

/-- C7 witness: the target invariant applied at the concrete reachable
start-up state, which is in phase IDLE. -/
theorem target_invariant_witness :
    (initState pick0).targetAngle ∈ TARGET_ANGLES ∧
    (update 3 (initState pick0)).targetAngle = (initState pick0).targetAngle := by
  have h := target_invariant (initState pick0) (Reachable.init pick0)
  refine ⟨h.1 ?_, h.2.2.2.2.1 3⟩
  rw [show (initState pick0).gamePhase = GamePhase.IDLE by
        norm_num [initState, nextLevel, state0, MAX_ROUNDS]]
  decide

/-- C8 counterexample: `s1` is the reachable bending state one toggle press
after start-up; it satisfies the equivalence `isBending = true ↔ phase =
BENDING`, yet applying the end-game transition function to it yields a state
that violates the equivalence (`isBending` stays true while the phase becomes
GAMEOVER) — so `endGame` does not preserve the equivalence. -/
theorem endGame_breaks_isBending :
    (s1.isBending = true ↔ s1.gamePhase = GamePhase.BENDING) ∧
    ¬ ((endGame s1).isBending = true ↔
        (endGame s1).gamePhase = GamePhase.BENDING) := by
  constructor
  · norm_num [s1, startBending, initState, nextLevel, state0, MAX_ROUNDS]
  · norm_num [endGame, s1, startBending, initState, nextLevel, state0,
              MAX_ROUNDS]
    decide

/-- C8 (amended): in every reachable session state `isBending = true` holds
iff the phase is BENDING; the start, stop, toggle, advance, restart and tick
transition functions all preserve this equivalence from any reachable state;
the end-game function preserves it from states whose phase is not BENDING —
which its only call site (advance with round counter past MAX_ROUNDS)
guarantees — but applied to a reachable BENDING state it breaks it. -/
theorem isBending_iff_phase (s : GameState) (h : Reachable s) :
    (s.isBending = true ↔ s.gamePhase = GamePhase.BENDING) ∧
    ((startBending s).isBending = true ↔
      (startBending s).gamePhase = GamePhase.BENDING) ∧
    ((stopBending s).isBending = true ↔
      (stopBending s).gamePhase = GamePhase.BENDING) ∧
    ((toggleAction s).isBending = true ↔
      (toggleAction s).gamePhase = GamePhase.BENDING) ∧
    (∀ pick, ((nextLevel pick s).isBending = true ↔
      (nextLevel pick s).gamePhase = GamePhase.BENDING)) ∧
    (∀ pick, ((restartGame pick s).isBending = true ↔
      (restartGame pick s).gamePhase = GamePhase.BENDING)) ∧
    (∀ dt : ℚ, 0 ≤ dt → ((update dt s).isBending = true ↔
      (update dt s).gamePhase = GamePhase.BENDING)) ∧
    (s.gamePhase ≠ GamePhase.BENDING →
      ((endGame s).isBending = true ↔
        (endGame s).gamePhase = GamePhase.BENDING)) := by
  have hi := reachable_inv h
  have hstart := inv_startBending hi
  have hstop := inv_stopBending hi
  refine ⟨hi.2.2.2.1, hstart.2.2.2.1, hstop.2.2.2.1,
          (inv_toggleAction hi).2.2.2.1,
          fun pick => (inv_nextLevel pick hi).2.2.2.1,
          fun pick => (inv_restartGame pick hi).2.2.2.1,
          fun dt hdt => (inv_update dt hdt hi).2.2.2.1,
          fun hp => ?_⟩
  have hbf : s.isBending = false := by
    cases hb : s.isBending
    · rfl
    · exact absurd (hi.2.2.2.1.mp hb) hp
  simp [endGame, hbf]

/-- C8 witness: the amended theorem applied at the concrete reachable
start-up state (phase IDLE), with a toggle press, a tick of 2 seconds, and
the end-game function whose not-BENDING side condition holds there. -/
theorem isBending_iff_phase_witness :
    ((initState pick0).isBending = true ↔
      (initState pick0).gamePhase = GamePhase.BENDING) ∧
    ((startBending (initState pick0)).isBending = true ↔
      (startBending (initState pick0)).gamePhase = GamePhase.BENDING) ∧
    ((update 2 (initState pick0)).isBending = true ↔
      (update 2 (initState pick0)).gamePhase = GamePhase.BENDING) ∧
    ((endGame (initState pick0)).isBending = true ↔
      (endGame (initState pick0)).gamePhase = GamePhase.BENDING) := by
  have h := isBending_iff_phase (initState pick0) (Reachable.init pick0)
  refine ⟨h.1, h.2.1, h.2.2.2.2.2.2.1 2 (by norm_num), h.2.2.2.2.2.2.2 ?_⟩
  rw [show (initState pick0).gamePhase = GamePhase.IDLE by
        norm_num [initState, nextLevel, state0, MAX_ROUNDS]]
  decide

end Kantpress
